import Mathlib

/-!
A shallow embedding of the orchestration core of multilint.py (the multilint
repository): the Tool and ToolResult enums, the TextIOLogger output-capture
adapter, the InfoToolLogger severity shim, the isort per-file result
aggregation, the upward pyproject.toml search, source-path glob expansion,
and the Multilint orchestrator's tool-order resolution and run loop.
External effects (the filesystem, the glob matcher, the behaviour of each
third-party tool) are abstracted as explicit function parameters; everything
else follows the Python source line by line.
-/

/-- The Tool enum of multilint.py (lines 48-58): every supported tool,
including multilint itself. -/
inductive Tool
  | autoflake
  | black
  | isort
  | multilint
  | mypy
  | pydocstyle
  | pylint
  | pyupgrade
  deriving DecidableEq, Repr

/-- The ToolResult enum of multilint.py (lines 61-67): SUCCESS,
SUCCESS_PARTIAL, FAILURE. -/
inductive ToolResult
  | SUCCESS
  | SUCCESS_PARTIAL
  | FAILURE
  deriving DecidableEq, Repr

/-- The Tool enum lookup by value: Tool(t) in Python returns the member with
string value t and raises ValueError for any other string (modelled as
none). -/
def Tool.ofValue : String → Option Tool
  | "autoflake" => some Tool.autoflake
  | "black" => some Tool.black
  | "isort" => some Tool.isort
  | "multilint" => some Tool.multilint
  | "mypy" => some Tool.mypy
  | "pydocstyle" => some Tool.pydocstyle
  | "pylint" => some Tool.pylint
  | "pyupgrade" => some Tool.pyupgrade
  | _ => none

/-- Helper for pySplitChar: walks the character list cutting at every
separator; the accumulator holds the current segment reversed. -/
def splitCharAux (sep : Char) : List Char → List Char → List (List Char)
  | [], acc => [acc.reverse]
  | c :: cs, acc =>
    if c = sep then acc.reverse :: splitCharAux sep cs []
    else splitCharAux sep cs (c :: acc)

/-- Python str.split(sep) for a one-character separator sep, on which
multilint.py relies as msg.split("\n"): "a\nb\n".split("\n") is
["a", "b", ""] and "".split("\n") is [""]. -/
def pySplitChar (sep : Char) (s : String) : List String :=
  (splitCharAux sep s.toList []).map (fun cs => String.mk cs)

/-- TextIOLogger.write (multilint.py lines 112-125), as the list of log
records one written chunk emits. A chunk equal to "" or "\n" returns early
and emits nothing; otherwise each segment of msg.split("\n") surviving
filter(None, ...) - each non-empty segment - is logged as one record. The
Python return value (0 or len(msg)) does not affect the records and is not
modelled. -/
def textIOLoggerWrite (msg : String) : List String :=
  if msg = "" ∨ msg = "\n" then []
  else (pySplitChar '\n' msg).filter (fun l => !l.isEmpty)

/-- The numeric value of Python logging.INFO. -/
def loggingINFO : Nat := 20

/-- The InfoToolLogger shim class defined inside PydocstyleRunner.run
(multilint.py lines 358-366), modelled by the one piece of state its
overridden method touches: the level attribute. -/
structure InfoToolLogger where
  level : Nat
  deriving DecidableEq, Repr

/-- InfoToolLogger construction: the Logger initializer stores the level
passed at construction time (the overridden setLevel is not involved). -/
def InfoToolLogger.init (level : Nat) : InfoToolLogger :=
  { level := level }

/-- InfoToolLogger.setLevel (multilint.py lines 365-366) ignores its argument
and assigns self.level = logging.INFO. -/
def InfoToolLogger.setLevel (logger : InfoToolLogger) (_newLevel : Nat) : InfoToolLogger :=
  { logger with level := loggingINFO }

/-- The ISortResult dataclass (multilint.py lines 209-223): a Python file,
its ToolResult, and an error message. -/
structure ISortResult where
  pyfile : String
  result : ToolResult
  errmsg : String
  deriving DecidableEq, Repr

/-- The aggregation ending ISortRunner.run (multilint.py lines 262-279):
failed is the subset of results whose result is FAILURE; the runner returns
FAILURE when len(failed) == len(results), SUCCESS_PARTIAL when
0 < len(failed) < len(results), and SUCCESS otherwise. The Python code keeps
the per-file results in a set; ISortResult hashes on all of its fields and
the file discovery yields each file once, so a list of the per-file results
models it faithfully. -/
def isortAggregate (results : List ISortResult) : ToolResult :=
  let failed := results.filter (fun r => r.result == ToolResult.FAILURE)
  if failed.length = results.length then ToolResult.FAILURE
  else if 0 < failed.length ∧ failed.length < results.length then ToolResult.SUCCESS_PARTIAL
  else ToolResult.SUCCESS

/-- A resolved directory, as its components listed innermost first: [] is the
filesystem root and [\x22b\x22, \x22a\x22] is the directory /a/b, whose
parent (path.resolve().parent in the Python) is its tail. -/
abbrev DirPath := List String

/-- find_pyproject_toml (multilint.py lines 435-449) over an abstract
filesystem: fs d tells whether directory d contains a regular file named
pyproject.toml. Returns the directory of the first match (the Python
function returns that directory joined with the filename). The root test
path == Path(\x22/\x22) is performed first, so the root directory itself is
never examined for the file. -/
def findPyprojectToml (fs : DirPath → Bool) : DirPath → Option DirPath
  | [] => none
  | c :: rest =>
    if fs (c :: rest) then some (c :: rest)
    else findPyprojectToml fs rest

/-- Fuel-indexed variant of findPyprojectToml: one unit of fuel per call,
none when the fuel runs out before the search returns. Used to state that
the upward recursion terminates. -/
def findPyprojectTomlFuel (fs : DirPath → Bool) : Nat → DirPath → Option (Option DirPath)
  | 0, _ => none
  | _ + 1, [] => some none
  | n + 1, c :: rest =>
    if fs (c :: rest) then some (some (c :: rest))
    else findPyprojectTomlFuel fs n rest

/-- The directories the upward search examines, in order: the starting
directory and each ancestor strictly below the filesystem root. -/
def ancestorsBelow : DirPath → List DirPath
  | [] => []
  | c :: rest => (c :: rest) :: ancestorsBelow rest

/-- parse_pyproject_toml (multilint.py lines 452-463): parse the discovered
file (contents d stands for the parsed mapping of the pyproject.toml found
in directory d) or return the empty mapping when the search finds nothing. -/
def parsePyprojectToml (fs : DirPath → Bool) (contents : DirPath → List (String × String))
    (path : DirPath) : List (String × String) :=
  match findPyprojectToml fs path with
  | none => []
  | some d => contents d

/-- Python PurePath.name for a normalized path string (no trailing slash):
the final path component. -/
def pathName (p : String) : String :=
  (pySplitChar '/' p).getLastD ""

/-- expand_src_paths (multilint.py lines 466-474) with the glob matcher
abstracted: globFn pat lists, in order, the paths glob(pat) matches. An
entry whose final component p.name contains the character * is replaced by
the matches of that final component alone; any other entry passes through
unchanged. sum(..., []) concatenates the per-entry lists in order. -/
def expandSrcPaths (globFn : String → List String) (srcPaths : List String) : List String :=
  (srcPaths.map (fun p =>
    if (pathName p).toList.any (fun c => c == '*') then globFn (pathName p)
    else [p])).flatten

/-- Key membership of the TOOL_RUNNERS registry (multilint.py lines 477-485):
it maps every tool except MULTILINT to a runner class. -/
def toolRunnersContains : Tool → Bool
  | Tool.autoflake => true
  | Tool.black => true
  | Tool.isort => true
  | Tool.multilint => false
  | Tool.mypy => true
  | Tool.pydocstyle => true
  | Tool.pylint => true
  | Tool.pyupgrade => true

/-- The exceptions the orchestrator itself can raise: ValueError from
Tool(t) on an unrecognized tool_order name, and KeyError from
TOOL_RUNNERS[tool] on a tool without a registered runner. -/
inductive RunError
  | valueError (name : String)
  | keyError (tool : Tool)
  deriving DecidableEq, Repr

/-- Multilint.DEFAULT_TOOL_ORDER (multilint.py lines 497-505). -/
def DEFAULT_TOOL_ORDER : List Tool :=
  [Tool.pyupgrade, Tool.autoflake, Tool.isort, Tool.black,
   Tool.mypy, Tool.pylint, Tool.pydocstyle]

/-- The comprehension [Tool(t) for t in names] (multilint.py lines 523-525):
convert each configured name in order, raising ValueError at the first
unrecognized one. -/
def parseToolOrder : List String → Except RunError (List Tool)
  | [] => Except.ok []
  | s :: rest =>
    match Tool.ofValue s with
    | none => Except.error (RunError.valueError s)
    | some t => (parseToolOrder rest).map (fun ts => t :: ts)

/-- The tool-order resolution of Multilint.__init__ (multilint.py lines
523-527): read the multilint section's tool_order key (an absent key is
modelled as none and defaults to the empty list), convert every name, and
fall back to DEFAULT_TOOL_ORDER when the converted list is empty. -/
def resolveToolOrder (cfgToolOrder : Option (List String)) : Except RunError (List Tool) :=
  match parseToolOrder (cfgToolOrder.getD []) with
  | Except.error e => Except.error e
  | Except.ok ts => Except.ok (if ts.isEmpty then DEFAULT_TOOL_ORDER else ts)

/-- Python dict assignment results[k] = v on an insertion-ordered
association list: replace the value in place when k is already a key,
otherwise append the new pair at the end. -/
def dictInsert (report : List (Tool × ToolResult)) (k : Tool) (v : ToolResult) :
    List (Tool × ToolResult) :=
  if report.any (fun p => p.1 == k) then
    report.map (fun p => if p.1 == k then (k, v) else p)
  else report ++ [(k, v)]

/-- The loop of Multilint.run_all_tools (multilint.py lines 555-567) with the
plugin behaviour abstracted: exec t is the ToolResult of running tool t,
standing for run_tool's config lookup, path expansion, plugin construction
and plugin run. For each tool in order, run_tool evaluates
TOOL_RUNNERS[tool] first - a missing key raises KeyError, aborting the run
and losing the results dict built so far - and only then runs the plugin.
The first component lists the tools whose plugin actually ran, in execution
order; the second is either the RunReport (the results dict as an
insertion-ordered association list) or the propagated exception. -/
def runAllToolsFrom (exec : Tool → ToolResult) (report : List (Tool × ToolResult)) :
    List Tool → List Tool × Except RunError (List (Tool × ToolResult))
  | [] => ([], Except.ok report)
  | t :: ts =>
    if toolRunnersContains t then
      let rest := runAllToolsFrom exec (dictInsert report t (exec t)) ts
      (t :: rest.1, rest.2)
    else ([], Except.error (RunError.keyError t))

/-- Multilint.run_all_tools starting from the empty results dict. -/
def runAllTools (exec : Tool → ToolResult) (order : List Tool) :
    List Tool × Except RunError (List (Tool × ToolResult)) :=
  runAllToolsFrom exec [] order

/-- The exit status computed by main (multilint.py line 584): 0 when every
tool's result is SUCCESS, 1 otherwise. -/
def mainRetcode (results : List (Tool × ToolResult)) : Nat :=
  if results.all (fun p => p.2 == ToolResult.SUCCESS) then 0 else 1

/-- A filesystem whose only pyproject.toml lives in the root directory. -/
def fsRootOnly : DirPath → Bool := fun d => d.isEmpty

/-- A glob function under which the pattern */x.py matches a/x.py while the
bare name x.py matches nothing. -/
def globStar : String → List String :=
  fun pat => if pat = "*/x.py" then ["a/x.py"] else []

/-- Helper: once an InfoToolLogger's level is loggingINFO, any further
sequence of setLevel calls keeps it there. -/
theorem foldl_setLevel_level (args : List Nat) :
    ∀ logger : InfoToolLogger, logger.level = loggingINFO →
      (args.foldl InfoToolLogger.setLevel logger).level = loggingINFO := by
  induction args with
  | nil => intro logger h; exact h
  | cons a rest ih =>
    intro logger _
    exact ih (logger.setLevel a) rfl

/-- Claim C10: the upward config-file search terminates for every starting
directory: with one unit of fuel per directory on the chain from the start
down to the root, the fuel-indexed search returns (rather than running out),
and its value is that of the total function findPyprojectToml. -/
theorem c10_search_terminates : ∀ (fs : DirPath → Bool) (p : DirPath),
    findPyprojectTomlFuel fs (p.length + 1) p = some (findPyprojectToml fs p) := by
  intro fs p
  induction p with
  | nil => rfl
  | cons c rest ih =>
    simp only [List.length_cons, findPyprojectTomlFuel, findPyprojectToml]
    cases h : fs (c :: rest) <;> simp [h, ih]

/-- Claim C2 counterexample: with pyproject.toml present only in the
filesystem root, a search started one level below returns none - the root
directory is never examined, refuting the claim that the search goes up to
and including the root. -/
theorem c2_root_config_missed :
    fsRootOnly [] = true ∧ findPyprojectToml fsRootOnly ["a"] = none :=
  ⟨rfl, rfl⟩

/-- Claim C2 (amended): the config-file search examines the starting
directory and each ancestor in order up to but excluding the filesystem
root, returning the first examined directory containing the well-known
config filename; the root is never among the examined directories; and when
nothing is found the parse step returns the empty mapping rather than
raising. -/
theorem c2_search_below_root : ∀ (fs : DirPath → Bool)
    (contents : DirPath → List (String × String)) (p : DirPath),
    findPyprojectToml fs p = (ancestorsBelow p).find? fs
    ∧ [] ∉ ancestorsBelow p
    ∧ (findPyprojectToml fs p = none → parsePyprojectToml fs contents p = []) := by
  intro fs contents p
  refine ⟨?_, ?_, ?_⟩
  · induction p with
    | nil => rfl
    | cons c rest ih =>
      simp only [findPyprojectToml, ancestorsBelow]
      cases h : fs (c :: rest)
      · simpa [List.find?, h] using ih
      · simp [List.find?, h]
  · induction p with
    | nil => simp [ancestorsBelow]
    | cons c rest ih => simpa [ancestorsBelow] using ih
  · intro h
    unfold parsePyprojectToml
    rw [h]

/-- Claim C2 witness: on a filesystem with no pyproject.toml anywhere, the
parse of the configuration from /a/b yields the empty mapping. -/
theorem c2_absent_config_witness :
    parsePyprojectToml (fun _ => false) (fun _ => [("k", "v")]) ["b", "a"] = [] :=
  (c2_search_below_root (fun _ => false) (fun _ => [("k", "v")]) ["b", "a"]).2.2 rfl

/-- Claim C6: writing the empty string or a single newline to the
output-capture adapter emits zero log records; otherwise (and in fact in
every case) the records emitted are exactly the non-empty newline-delimited
segments of the chunk, one record each and in order, so writing "a\nb\n"
emits exactly the records "a" and "b" and empty segments are never
emitted. -/
theorem c6_write_records :
    textIOLoggerWrite "" = []
    ∧ textIOLoggerWrite "\n" = []
    ∧ textIOLoggerWrite "a\nb\n" = ["a", "b"]
    ∧ ∀ msg : String,
        textIOLoggerWrite msg = (pySplitChar '\n' msg).filter (fun l => !l.isEmpty) := by
  refine ⟨by decide, by decide, by decide, ?_⟩
  intro msg
  unfold textIOLoggerWrite
  split
  · rename_i h
    rcases h with rfl | rfl <;> decide
  · rfl

/-- Claim C7 counterexample: an InfoToolLogger constructed with level 30
(WARNING) does not keep its originally configured level across a setLevel
call - the call changes the level to 20 (INFO) - refuting the claim that
setLevel has no effect for every construction level. -/
theorem c7_setlevel_changes_noninfo_level :
    ((InfoToolLogger.init 30).setLevel 10).level = 20 ∧ (20 : Nat) ≠ 30 :=
  ⟨rfl, by decide⟩

/-- Claim C7 (amended): every setLevel call pins the adapter's level to the
fixed value logging.INFO regardless of its argument, so after any non-empty
sequence of setLevel calls the level is loggingINFO; in particular, for the
adapter as the program constructs it - originally configured at
logging.INFO - any sequence of setLevel calls leaves the effective level at
its originally configured value. -/
theorem c7_setlevel_pins_info :
    (∀ (start a : Nat) (args : List Nat),
      ((a :: args).foldl InfoToolLogger.setLevel (InfoToolLogger.init start)).level = loggingINFO)
    ∧ ∀ args : List Nat,
      (args.foldl InfoToolLogger.setLevel (InfoToolLogger.init loggingINFO)).level = loggingINFO := by
  constructor
  · intro start a args
    exact foldl_setLevel_level args ((InfoToolLogger.init start).setLevel a) rfl
  · intro args
    exact foldl_setLevel_level args (InfoToolLogger.init loggingINFO) rfl

/-- Claim C8: with the tool_order key absent (none) or empty (some []), the
resolved execution order is the built-in DEFAULT_TOOL_ORDER, which is
exactly syntax upgrade (pyupgrade), unused-code removal (autoflake), import
sorting (isort), formatting (black), type-checking (mypy), linting (pylint),
docstring checking (pydocstyle) - fixing tools strictly before checking
tools. -/
theorem c8_default_order :
    resolveToolOrder none = Except.ok DEFAULT_TOOL_ORDER
    ∧ resolveToolOrder (some []) = Except.ok DEFAULT_TOOL_ORDER
    ∧ DEFAULT_TOOL_ORDER =
      [Tool.pyupgrade, Tool.autoflake, Tool.isort, Tool.black,
       Tool.mypy, Tool.pylint, Tool.pydocstyle] :=
  ⟨rfl, rfl, rfl⟩

/-- Claim C5: the process exit status computed by main is zero exactly when
every Outcome in the RunReport is SUCCESS, and it is always zero or one, so
the presence of any SUCCESS_PARTIAL or FAILURE yields the non-zero status
one. -/
theorem c5_exit_status :
    ∀ results : List (Tool × ToolResult),
      (mainRetcode results = 0 ↔ ∀ p ∈ results, p.2 = ToolResult.SUCCESS)
      ∧ (mainRetcode results = 0 ∨ mainRetcode results = 1) := by
  intro results
  constructor
  · unfold mainRetcode
    split
    · rename_i h
      simp only [List.all_eq_true, beq_iff_eq] at h
      simpa using h
    · rename_i h
      simp only [List.all_eq_true, beq_iff_eq] at h
      exact iff_of_false (by omega) h
  · unfold mainRetcode
    split
    · exact Or.inl rfl
    · exact Or.inr rfl

/-- Claim C1 counterexample: the isort runner evaluating zero files returns
FAILURE (the branch len(failed) == len(results) fires with 0 == 0), not the
SUCCESS the claim asserts for the zero-files case. -/
theorem c1_zero_files_fail :
    isortAggregate [] = ToolResult.FAILURE ∧ ToolResult.FAILURE ≠ ToolResult.SUCCESS :=
  ⟨rfl, by decide⟩

/-- Claim C1 (amended): the isort runner returns FAILURE when every
evaluated file failed - including the zero-files case, where len(failed) ==
len(results) holds vacuously and the outcome is FAILURE, not SUCCESS -
SUCCESS_PARTIAL when a non-empty proper subset of the evaluated files
failed, and SUCCESS when at least one file was evaluated and none failed. -/
theorem c1_isort_aggregation :
    ∀ rs : List ISortResult,
      ((∀ r ∈ rs, r.result = ToolResult.FAILURE) → isortAggregate rs = ToolResult.FAILURE)
      ∧ ((∃ r ∈ rs, r.result = ToolResult.FAILURE) → (∃ r ∈ rs, r.result ≠ ToolResult.FAILURE) →
          isortAggregate rs = ToolResult.SUCCESS_PARTIAL)
      ∧ (rs ≠ [] → (∀ r ∈ rs, r.result ≠ ToolResult.FAILURE) →
          isortAggregate rs = ToolResult.SUCCESS) := by
  intro rs
  refine ⟨?_, ?_, ?_⟩
  · intro h
    have hfilter : rs.filter (fun r => r.result == ToolResult.FAILURE) = rs :=
      List.filter_eq_self.mpr (fun a ha => by simpa using h a ha)
    simp [isortAggregate, hfilter]
  · rintro ⟨a, ha, hares⟩ ⟨b, hb, hbres⟩
    have hpos : 0 < (rs.filter (fun r => r.result == ToolResult.FAILURE)).length := by
      have hmem : a ∈ rs.filter (fun r => r.result == ToolResult.FAILURE) :=
        List.mem_filter.mpr ⟨ha, by simpa using hares⟩
      exact List.length_pos.mpr (List.ne_nil_of_mem hmem)
    have hne : (rs.filter (fun r => r.result == ToolResult.FAILURE)).length ≠ rs.length := by
      intro heq
      exact hbres (by simpa using List.filter_length_eq_length.mp heq b hb)
    have hlt : (rs.filter (fun r => r.result == ToolResult.FAILURE)).length < rs.length :=
      Nat.lt_of_le_of_ne (List.length_filter_le _ rs) hne
    simp only [isortAggregate]
    rw [if_neg hne, if_pos ⟨hpos, hlt⟩]
  · intro hne h
    have hfilter : rs.filter (fun r => r.result == ToolResult.FAILURE) = [] :=
      List.filter_eq_nil_iff.mpr (fun a ha => by simpa using h a ha)
    have hlen : 0 < rs.length := List.length_pos.mpr hne
    simp only [isortAggregate, hfilter, List.length_nil]
    rw [if_neg (by omega), if_neg (by omega)]

/-- Claim C1 witness: evaluating the amended aggregation at concrete runs -
two files both failing give FAILURE, one of two failing gives
SUCCESS_PARTIAL, and one evaluated file with no failure gives SUCCESS. -/
theorem c1_isort_witness :
    isortAggregate [⟨"a.py", ToolResult.FAILURE, "m"⟩, ⟨"b.py", ToolResult.FAILURE, "m"⟩]
      = ToolResult.FAILURE
    ∧ isortAggregate [⟨"a.py", ToolResult.FAILURE, "m"⟩, ⟨"b.py", ToolResult.SUCCESS, ""⟩]
      = ToolResult.SUCCESS_PARTIAL
    ∧ isortAggregate [⟨"a.py", ToolResult.SUCCESS, ""⟩] = ToolResult.SUCCESS :=
  ⟨(c1_isort_aggregation _).1 (by decide),
   (c1_isort_aggregation _).2.1
     ⟨⟨"a.py", ToolResult.FAILURE, "m"⟩, by decide, rfl⟩
     ⟨⟨"b.py", ToolResult.SUCCESS, ""⟩, by decide, by decide⟩,
   (c1_isort_aggregation _).2.2 (by decide) (by decide)⟩

/-- Claim C9 counterexample: the entry */x.py carries a glob wildcard in its
first component and the matcher resolves it to a/x.py, yet expand_src_paths
passes it through unchanged, because only the final component p.name is
tested for the character *. -/
theorem c9_parent_wildcard_not_expanded :
    expandSrcPaths globStar ["*/x.py"] = ["*/x.py"]
    ∧ ("*/x.py").toList.any (fun c => c == '*') = true
    ∧ globStar "*/x.py" = ["a/x.py"]
    ∧ ["*/x.py"] ≠ ["a/x.py"] := by
  refine ⟨by decide, by decide, by decide, by decide⟩

/-- Claim C9 (amended): path expansion works entrywise and in order; an
entry whose final component contains the character * is replaced by the
matches of that final component alone, and every other entry - even one
with wildcards in earlier components - passes through unchanged. -/
theorem c9_expand_final_component :
    ∀ (globFn : String → List String) (ps qs : List String) (p : String),
      expandSrcPaths globFn (ps ++ qs) = expandSrcPaths globFn ps ++ expandSrcPaths globFn qs
      ∧ ((pathName p).toList.any (fun c => c == '*') = false →
          expandSrcPaths globFn [p] = [p])
      ∧ ((pathName p).toList.any (fun c => c == '*') = true →
          expandSrcPaths globFn [p] = globFn (pathName p)) := by
  intro globFn ps qs p
  refine ⟨?_, ?_, ?_⟩
  · simp [expandSrcPaths]
  · intro h
    simp only [expandSrcPaths, List.map_cons, List.map_nil, h, Bool.false_eq_true, if_false,
      List.flatten_cons, List.flatten_nil, List.append_nil]
  · intro h
    simp only [expandSrcPaths, List.map_cons, List.map_nil, h, if_true,
      List.flatten_cons, List.flatten_nil, List.append_nil]

/-- Claim C9 witness: a literal entry beside a final-component glob entry -
the literal passes through and the glob entry is replaced by its (here
empty) match list. -/
theorem c9_expand_witness :
    expandSrcPaths globStar ["src/a.py", "*.py"] = ["src/a.py"] := by
  have h := c9_expand_final_component globStar ["src/a.py"] ["*.py"] "src/a.py"
  have h2 := c9_expand_final_component globStar [] [] "*.py"
  calc expandSrcPaths globStar (["src/a.py"] ++ ["*.py"])
      = expandSrcPaths globStar ["src/a.py"] ++ expandSrcPaths globStar ["*.py"] := h.1
    _ = ["src/a.py"] ++ expandSrcPaths globStar ["*.py"] := by rw [h.2.1 (by decide)]
    _ = ["src/a.py"] ++ globStar (pathName "*.py") := by rw [h2.2.2 (by decide)]
    _ = ["src/a.py"] := by decide

/-- Helper: Tool(t) over a list of names raises ValueError as soon as the
list holds an unrecognized name. -/
theorem parseToolOrder_error_of_unknown :
    ∀ (cfg : List String) (s : String), s ∈ cfg → Tool.ofValue s = none →
      ∃ e, parseToolOrder cfg = Except.error e := by
  intro cfg
  induction cfg with
  | nil => intro s hs _; exact absurd hs (List.not_mem_nil s)
  | cons a rest ih =>
    intro s hs hnone
    rcases List.mem_cons.mp hs with rfl | hmem
    · exact ⟨RunError.valueError s, by simp [parseToolOrder, hnone]⟩
    · cases ha : Tool.ofValue a with
      | none => exact ⟨RunError.valueError a, by simp [parseToolOrder, ha]⟩
      | some t =>
        obtain ⟨e, he⟩ := ih s hmem hnone
        exact ⟨e, by simp [parseToolOrder, ha, he, Except.map]⟩

/-- Helper: the run loop executes exactly the registered-runner prefix of
the order and aborts with KeyError at the first tool without a registered
runner, whatever results dict it started from. -/
theorem runAllToolsFrom_error_at_no_runner :
    ∀ (exec : Tool → ToolResult) (pre : List Tool) (t : Tool) (post : List Tool)
      (report : List (Tool × ToolResult)),
      (∀ u ∈ pre, toolRunnersContains u = true) → toolRunnersContains t = false →
      runAllToolsFrom exec report (pre ++ t :: post) =
        (pre, Except.error (RunError.keyError t)) := by
  intro exec pre
  induction pre with
  | nil =>
    intro t post report _ ht
    simp [runAllToolsFrom, ht]
  | cons u rest ih =>
    intro t post report hpre ht
    have hu : toolRunnersContains u = true := hpre u (List.mem_cons_self u rest)
    simp only [List.cons_append, runAllToolsFrom, hu, if_true, List.append_eq]
    rw [ih t post (dictInsert report u (exec u))
      (fun v hv => hpre v (List.mem_cons_of_mem u hv)) ht]

/-- Claim C3 counterexample: multilint is a recognized Tool identity with no
registered runner; with the execution order [isort, multilint] the isort
plugin executes first (the executed-tools trace is the non-empty [isort])
and only then does the run abort - refuting the claim that the failure is
raised before any plugin executes. -/
theorem c3_plugin_runs_before_error :
    runAllTools (fun _ => ToolResult.SUCCESS) [Tool.isort, Tool.multilint]
      = ([Tool.isort], Except.error (RunError.keyError Tool.multilint))
    ∧ ([Tool.isort] : List Tool) ≠ [] :=
  ⟨rfl, by decide⟩

/-- Claim C3 (amended): an unrecognized name in the configured tool_order is
a ValueError raised during construction, before any plugin executes; a
recognized identity without a registered runner (multilint) instead aborts
the run with KeyError only when it is reached, after every earlier tool in
the order has executed, and no RunReport is returned in either case. -/
theorem c3_unknown_and_unregistered :
    (∀ (cfg : List String) (s : String), s ∈ cfg → Tool.ofValue s = none →
      ∃ e, resolveToolOrder (some cfg) = Except.error e)
    ∧ ∀ (exec : Tool → ToolResult) (pre : List Tool) (t : Tool) (post : List Tool),
        (∀ u ∈ pre, toolRunnersContains u = true) → toolRunnersContains t = false →
        runAllTools exec (pre ++ t :: post) = (pre, Except.error (RunError.keyError t)) := by
  constructor
  · intro cfg s hs hnone
    obtain ⟨e, he⟩ := parseToolOrder_error_of_unknown cfg s hs hnone
    exact ⟨e, by simp [resolveToolOrder, Option.getD, he]⟩
  · intro exec pre t post hpre ht
    exact runAllToolsFrom_error_at_no_runner exec pre t post [] hpre ht

/-- Claim C3 witness: the unrecognized name bogus fails order resolution,
and a concrete order with multilint in second place aborts with KeyError
after executing only the first tool. -/
theorem c3_config_error_witness :
    (∃ e, resolveToolOrder (some ["bogus"]) = Except.error e)
    ∧ runAllTools (fun _ => ToolResult.SUCCESS) [Tool.black, Tool.multilint, Tool.pylint]
      = ([Tool.black], Except.error (RunError.keyError Tool.multilint)) :=
  ⟨c3_unknown_and_unregistered.1 ["bogus"] "bogus" (by simp) rfl,
   c3_unknown_and_unregistered.2 (fun _ => ToolResult.SUCCESS)
     [Tool.black] Tool.multilint [Tool.pylint] (by decide) rfl⟩

/-- Helper: assigning a key not yet present in the results dict appends the
pair at the end. -/
theorem dictInsert_of_not_mem :
    ∀ (report : List (Tool × ToolResult)) (k : Tool) (v : ToolResult),
      k ∉ report.map Prod.fst → dictInsert report k v = report ++ [(k, v)] := by
  intro report k v hk
  unfold dictInsert
  rw [if_neg]
  intro hany
  obtain ⟨p, hp, hpk⟩ := List.any_eq_true.mp hany
  exact hk (List.mem_map.mpr ⟨p, hp, by simpa using hpk⟩)

/-- Helper: over a duplicate-free order of registered tools whose keys are
fresh for the accumulated dict, the run loop executes every tool in order
and appends one outcome per tool. -/
theorem runAllToolsFrom_ok :
    ∀ (exec : Tool → ToolResult) (ts : List Tool) (report : List (Tool × ToolResult)),
      (∀ t ∈ ts, toolRunnersContains t = true) →
      ts.Nodup →
      (∀ t ∈ ts, t ∉ report.map Prod.fst) →
      runAllToolsFrom exec report ts =
        (ts, Except.ok (report ++ ts.map (fun t => (t, exec t)))) := by
  intro exec ts
  induction ts with
  | nil => intro report _ _ _; simp [runAllToolsFrom]
  | cons t rest ih =>
    intro report hrun hnodup hfresh
    have ht : toolRunnersContains t = true := hrun t (List.mem_cons_self t rest)
    have hins : dictInsert report t (exec t) = report ++ [(t, exec t)] :=
      dictInsert_of_not_mem report t (exec t) (hfresh t (List.mem_cons_self t rest))
    have hfresh2 : ∀ u ∈ rest, u ∉ (report ++ [(t, exec t)]).map Prod.fst := by
      intro u hu
      simp only [List.map_append, List.mem_append]
      rintro (h1 | h2)
      · exact hfresh u (List.mem_cons_of_mem t hu) h1
      · have hut : u = t := by simpa using h2
        exact (List.nodup_cons.mp hnodup).1 (hut ▸ hu)
    simp only [runAllToolsFrom, ht, if_true, hins]
    rw [ih (report ++ [(t, exec t)]) (fun u hu => hrun u (List.mem_cons_of_mem t hu))
      (List.nodup_cons.mp hnodup).2 hfresh2]
    simp

/-- Claim C4: for a duplicate-free execution order in which every identity
has a registered runner, run_all_tools executes the tools strictly in that
order (the executed-tools trace equals the order), never aborts on FAILURE
or SUCCESS_PARTIAL outcomes (exec is arbitrary and the result is always ok),
and returns a RunReport holding exactly one outcome per identity whose key
sequence equals the order executed. -/
theorem c4_run_all_tools :
    ∀ (exec : Tool → ToolResult) (order : List Tool),
      order.Nodup → (∀ t ∈ order, toolRunnersContains t = true) →
      runAllTools exec order = (order, Except.ok (order.map (fun t => (t, exec t))))
      ∧ (order.map (fun t => (t, exec t))).map Prod.fst = order := by
  intro exec order hnodup hrun
  constructor
  · have h := runAllToolsFrom_ok exec order [] hrun hnodup (by simp)
    simpa [runAllTools] using h
  · simp [Function.comp_def]

/-- Claim C4 witness: the default tool order is duplicate-free, every tool
in it has a registered runner, and a run where every plugin fails still
produces the complete ordered report. -/
theorem c4_run_all_witness :
    runAllTools (fun _ => ToolResult.FAILURE) DEFAULT_TOOL_ORDER
      = (DEFAULT_TOOL_ORDER,
         Except.ok (DEFAULT_TOOL_ORDER.map (fun t => (t, ToolResult.FAILURE)))) :=
  (c4_run_all_tools (fun _ => ToolResult.FAILURE) DEFAULT_TOOL_ORDER
    (by decide) (by decide)).1
